import Mathlib

/-!
Verification of the IBVI ads platform showcase repository.

The first part embeds the TypeScript client `examples/typescript/campaign-client.ts`
(data model, `filterCampaigns`, `calculateStats`, `groupByPlatform`, `getCampaigns`).
The second part models, from the specification, the components whose code is not in
the repository (campaign aggregator, ROI/CPA calculator, metrics cache, optimization
planner, threshold gate).  JavaScript numbers are embedded as rationals.
-/

/-- The `Platform` union type of campaign-client.ts. -/
inductive Platform where
  | google
  | meta
deriving DecidableEq

/-- The `CampaignStatus` union type of campaign-client.ts. -/
inductive CampaignStatus where
  | ENABLED
  | PAUSED
  | REMOVED
deriving DecidableEq

/-- The `CampaignMetrics` interface of campaign-client.ts: all six fields are plain
numbers, including the derived `ctr` and `cpa`. -/
structure CampaignMetrics where
  impressions : ℚ
  clicks : ℚ
  conversions : ℚ
  cost : ℚ
  ctr : ℚ
  cpa : ℚ
deriving DecidableEq

/-- The `Campaign` interface of campaign-client.ts. -/
structure Campaign where
  id : String
  platform : Platform
  name : String
  status : CampaignStatus
  daily_budget : ℚ
  currency : String
  metrics : CampaignMetrics
deriving DecidableEq

/-- The `CampaignFilters` interface of campaign-client.ts: every field is optional. -/
structure CampaignFilters where
  platform : Option Platform
  status : Option CampaignStatus
  minBudget : Option ℚ
  maxBudget : Option ℚ
deriving DecidableEq

/-- The `CampaignStats` interface of campaign-client.ts. -/
structure CampaignStats where
  total : ℕ
  enabled : ℕ
  paused : ℕ
  totalBudget : ℚ
  totalSpend : ℚ
deriving DecidableEq

/-- Guard `filters.platform && campaign.platform !== filters.platform` of
`filterCampaigns`.  An absent field is falsy; a present platform value is one of the
non-empty strings "google"/"meta", hence always truthy. -/
def guardPlatform (filters : CampaignFilters) (campaign : Campaign) : Bool :=
  match filters.platform with
  | none => false
  | some p => decide (campaign.platform ≠ p)

/-- Guard `filters.status && campaign.status !== filters.status` of `filterCampaigns`.
A present status value is a non-empty string, hence always truthy. -/
def guardStatus (filters : CampaignFilters) (campaign : Campaign) : Bool :=
  match filters.status with
  | none => false
  | some s => decide (campaign.status ≠ s)

/-- Guard `filters.minBudget && campaign.daily_budget < filters.minBudget` of
`filterCampaigns`.  The number `0` is falsy in JavaScript, so a bound of `0` disables
the test. -/
def guardMin (filters : CampaignFilters) (campaign : Campaign) : Bool :=
  match filters.minBudget with
  | none => false
  | some b => decide (b ≠ 0) && decide (campaign.daily_budget < b)

/-- Guard `filters.maxBudget && campaign.daily_budget > filters.maxBudget` of
`filterCampaigns`; a bound of `0` is falsy and disables the test. -/
def guardMax (filters : CampaignFilters) (campaign : Campaign) : Bool :=
  match filters.maxBudget with
  | none => false
  | some b => decide (b ≠ 0) && decide (b < campaign.daily_budget)

/-- The predicate of the arrow function passed to `campaigns.filter` in
`filterCampaigns`: the callback returns `false` as soon as one guard fires,
otherwise `true`. -/
def keepCampaign (filters : CampaignFilters) (campaign : Campaign) : Bool :=
  !guardPlatform filters campaign && !guardStatus filters campaign &&
    !guardMin filters campaign && !guardMax filters campaign

/-- `CampaignClient.filterCampaigns` of campaign-client.ts. -/
def filterCampaigns (campaigns : List Campaign) (filters : CampaignFilters) :
    List Campaign :=
  campaigns.filter (fun campaign => keepCampaign filters campaign)

/-- The reducer body of `CampaignClient.calculateStats`. -/
def statsStep (stats : CampaignStats) (campaign : Campaign) : CampaignStats :=
  let stats1 := { stats with total := stats.total + 1 }
  let stats2 :=
    if campaign.status = CampaignStatus.ENABLED then
      { stats1 with
        enabled := stats1.enabled + 1
        totalBudget := stats1.totalBudget + campaign.daily_budget }
    else if campaign.status = CampaignStatus.PAUSED then
      { stats1 with paused := stats1.paused + 1 }
    else stats1
  { stats2 with totalSpend := stats2.totalSpend + campaign.metrics.cost }

/-- `CampaignClient.calculateStats` of campaign-client.ts: a left fold of `statsStep`
over the campaign list starting from the all-zero accumulator. -/
def calculateStats (campaigns : List Campaign) : CampaignStats :=
  campaigns.foldl statsStep ⟨0, 0, 0, 0, 0⟩

/-- The reducer body of `CampaignClient.groupByPlatform`: if the key is missing it is
initialised to `[]`, then the campaign is pushed onto its platform's list. -/
def groupStep (groups : Platform → Option (List Campaign)) (campaign : Campaign) :
    Platform → Option (List Campaign) :=
  fun p =>
    if p = campaign.platform then some ((groups campaign.platform).getD [] ++ [campaign])
    else groups p

/-- `CampaignClient.groupByPlatform` of campaign-client.ts.  The TypeScript record
starts as the empty object `{}`, so a platform with no campaign has no key; this is
embedded as the map sending every platform to `none`. -/
def groupByPlatform (campaigns : List Campaign) : Platform → Option (List Campaign) :=
  campaigns.foldl groupStep (fun _ => none)

/-- The part of an HTTP response that `getCampaigns` inspects. -/
structure HttpResponse where
  ok : Bool
  body : List Campaign
deriving DecidableEq

/-- `CampaignClient.getCampaigns` of campaign-client.ts, with the network modelled as
the response it yields: the method throws exactly when `response.ok` is false, and
otherwise returns the parsed body. -/
def getCampaigns (response : HttpResponse) : Except String (List Campaign) :=
  if response.ok then Except.ok response.body
  else Except.error "Failed to fetch campaigns"

/-- Modelled from the spec: the `AdapterError` taxonomy of section 7; the adapter code
itself is not in the repository. -/
inductive AdapterError where
  | timeout
  | rateLimited
  | unavailable
  | rejected
deriving DecidableEq

/-- Modelled from the spec: the unified campaign view returned by the aggregator,
carrying the merged campaigns, the `degraded` flag and the list of failed
platforms (section 4.3); the aggregator code is not in the repository. -/
structure AggResult where
  campaigns : List Campaign
  degraded : Bool
  failed : List Platform
deriving DecidableEq

/-- Modelled from the spec: the fatal aggregation error raised only when every
platform is unreachable (section 7); the aggregator code is not in the repository. -/
inductive AggError where
  | totalOutage
deriving DecidableEq

/-- Modelled from the spec: the campaign aggregator of section 4.3, over the two
configured platforms.  A platform that fails is dropped from the merged view and
named in `failed`; only when both platforms fail does the aggregation return a hard
error.  The aggregator code is not in the repository. -/
def aggregate (googleRes metaRes : Except AdapterError (List Campaign)) :
    Except AggError AggResult :=
  match googleRes, metaRes with
  | Except.error _, Except.error _ => Except.error AggError.totalOutage
  | Except.ok g, Except.ok m => Except.ok ⟨g ++ m, false, []⟩
  | Except.ok g, Except.error _ => Except.ok ⟨g, true, [Platform.meta]⟩
  | Except.error _, Except.ok m => Except.ok ⟨m, true, [Platform.google]⟩

/-- Modelled from the spec: the query surface of section 6 serving the unified
campaign view over HTTP; a successful (possibly degraded) aggregation is a 2xx
response carrying the campaigns, a total outage is a non-ok response.  The server
route code is not in the repository. -/
def serveCampaignView (agg : Except AggError AggResult) : HttpResponse :=
  match agg with
  | Except.ok r => ⟨true, r.campaigns⟩
  | Except.error _ => ⟨false, []⟩

/-- Modelled from the spec: the `MetricsSnapshot` entity of section 3
(`impressions, clicks, conversions ≥ 0, cost_micros ≥ 0`); the calculator code is
not in the repository. -/
structure MetricsSnapshot where
  impressions : ℕ
  clicks : ℕ
  conversions : ℕ
  cost_micros : ℕ
deriving DecidableEq

/-- Modelled from the spec: the CPA computation of the ROI/CPA calculator
(section 4.4): `cost_micros / conversions` when `conversions > 0`, and the explicit
`none` sentinel when `conversions = 0`.  The calculator code is not in the
repository. -/
def computeCPA (s : MetricsSnapshot) : Option ℚ :=
  if s.conversions = 0 then none
  else some ((s.cost_micros : ℚ) / (s.conversions : ℚ))

/-- Modelled from the spec: the ROI computation of the ROI/CPA calculator
(section 4.4): `(conversion_value − cost_micros) / cost_micros` when
`cost_micros > 0`, and the explicit `none` sentinel when `cost_micros = 0`. -/
def computeROI (s : MetricsSnapshot) (conversion_value : ℚ) : Option ℚ :=
  if s.cost_micros = 0 then none
  else some ((conversion_value - (s.cost_micros : ℚ)) / (s.cost_micros : ℚ))

/-- Modelled from the spec: the mutable state of the metrics cache of section 4.2,
reduced to what the single-flight property observes: `inflight` holds one entry per
refresh currently in flight, `waiters` counts the callers subscribed to the pending
refresh of each key, `upstreamCalls` counts the upstream aggregator invocations
issued so far for each key.  The cache code is not in the repository. -/
structure CacheState where
  inflight : List String
  waiters : String → ℕ
  upstreamCalls : String → ℕ

/-- Modelled from the spec: a cache miss for key `k` (section 4.2).  If a refresh of
`k` is already in flight the caller merely subscribes; otherwise one upstream
invocation is issued, the refresh is registered in flight, and the caller
subscribes.  The cache code is not in the repository. -/
def requestMiss (s : CacheState) (k : String) : CacheState :=
  if k ∈ s.inflight then
    { s with waiters := fun q => if q = k then s.waiters q + 1 else s.waiters q }
  else
    { inflight := k :: s.inflight
      waiters := fun q => if q = k then s.waiters q + 1 else s.waiters q
      upstreamCalls := fun q => if q = k then s.upstreamCalls q + 1 else s.upstreamCalls q }

/-- Modelled from the spec: completion of the in-flight refresh of key `k` with
result `r` (a value or an error): every subscribed caller receives that same result,
and the refresh leaves the in-flight set.  The cache code is not in the
repository. -/
def completeRefresh (s : CacheState) (k : String)
    (r : Except AggError AggResult) : CacheState × List (Except AggError AggResult) :=
  ({ inflight := s.inflight.erase k
     waiters := fun q => if q = k then 0 else s.waiters q
     upstreamCalls := s.upstreamCalls },
   List.replicate (s.waiters k) r)

/-- Modelled from the spec: the single-flight invariant of section 3 — at most one
in-flight refresh per key at any time. -/
def SingleFlight (s : CacheState) : Prop :=
  ∀ k, s.inflight.count k ≤ 1

/-- Modelled from the spec: a campaign as seen by the optimization planner
(section 4.5) — its id, current daily budget in micros and defined ROI; campaigns
with undefined ROI are excluded before the planner runs.  The planner code is not in
the repository. -/
structure PlannerCampaign where
  id : String
  budget : ℚ
  roi : ℚ
deriving DecidableEq

/-- Modelled from the spec: the planner configuration — `max_delta_per_tick` as a
fraction of the current budget (e.g. 1/5 for ±20%) and `max_growth_factor ≥ 1`
(section 6, configuration surface). -/
structure PlannerConfig where
  maxDelta : ℚ
  maxGrowth : ℚ
deriving DecidableEq

/-- Modelled from the spec: the ranking order of section 4.5 step 1 — ROI
descending, ties broken by ascending campaign id. -/
def rankLE (a b : PlannerCampaign) : Prop :=
  b.roi < a.roi ∨ (a.roi = b.roi ∧ a.id ≤ b.id)

instance : DecidableRel rankLE := fun a b => by
  unfold rankLE
  infer_instance

instance : IsTotal PlannerCampaign rankLE where
  total a b := by
    unfold rankLE
    rcases lt_trichotomy a.roi b.roi with h | h | h
    · exact Or.inr (Or.inl h)
    · rcases le_total a.id b.id with hid | hid
      · exact Or.inl (Or.inr ⟨h, hid⟩)
      · exact Or.inr (Or.inr ⟨h.symm, hid⟩)
    · exact Or.inl (Or.inl h)

instance : IsTrans PlannerCampaign rankLE where
  trans a b c hab hbc := by
    unfold rankLE at hab hbc ⊢
    rcases hab with h1 | ⟨e1, h1⟩
    · rcases hbc with h2 | ⟨e2, h2⟩
      · exact Or.inl (h2.trans h1)
      · exact Or.inl (e2 ▸ h1)
    · rcases hbc with h2 | ⟨e2, h2⟩
      · exact Or.inl (e1 ▸ h2)
      · exact Or.inr ⟨e1.trans e2, h1.trans h2⟩

/-- Modelled from the spec: step 1 of the planner — rank the cohort by `rankLE`
with a stable sort. -/
def rankCampaigns (cs : List PlannerCampaign) : List PlannerCampaign :=
  cs.insertionSort rankLE

/-- Modelled from the spec: the signed rank score of position `i` in a cohort of
`n`, linear in the rank: the top-ranked campaign scores `1`, the bottom-ranked
`-1` (a cohort of one scores `0`).  Section 4.5 step 2 asks for a delta
proportional to the ROI rank relative to the cohort. -/
def rankScore (i n : ℕ) : ℚ :=
  if n ≤ 1 then 0 else 1 - 2 * (i : ℚ) / ((n : ℚ) - 1)

/-- Clamp `x` into `[lo, hi]`. -/
def clampQ (x lo hi : ℚ) : ℚ := max lo (min hi x)

/-- Modelled from the spec: the candidate budget delta of section 4.5 step 2 for the
campaign at rank `i` of `n` — proportional to its rank score, clamped to the
configured maximum per-tick change `±maxDelta` of the current budget. -/
def candidateDelta (cfg : PlannerConfig) (n i : ℕ) (c : PlannerCampaign) : ℚ :=
  clampQ (c.budget * cfg.maxDelta * rankScore i n)
    (-(cfg.maxDelta * c.budget)) (cfg.maxDelta * c.budget)

/-- The candidate deltas of the ranked cohort, in rank order, starting at rank `i`. -/
def deltasAux (cfg : PlannerConfig) (n : ℕ) : ℕ → List PlannerCampaign → List ℚ
  | _, [] => []
  | i, c :: rest => candidateDelta cfg n i c :: deltasAux cfg n (i + 1) rest

/-- Modelled from the spec: the conservation scale factor of section 4.5 step 3.
When the unconstrained proposal keeps the budget sum within
`maxGrowth * totalBudget` the deltas stand; otherwise the positive deltas (the
increases) are scaled down proportionally by the factor in `[0, 1]` that brings the
sum back to the bound. -/
def conservationScale (cfg : PlannerConfig) (totalBudget posSum negSum : ℚ) : ℚ :=
  if totalBudget + posSum + negSum ≤ cfg.maxGrowth * totalBudget then 1
  else clampQ ((cfg.maxGrowth * totalBudget - totalBudget - negSum) / posSum) 0 1

/-- Modelled from the spec: application of the conservation scale — increases are
scaled down, decreases stand (section 4.5 step 3: largest absolute increases lose
the most). -/
def scaledDelta (scale d : ℚ) : ℚ := if 0 < d then scale * d else d

/-- Modelled from the spec: a planner proposal `(campaign_id, old_budget,
new_budget, reason)` of section 4.5 step 4. -/
structure Proposal where
  campaign_id : String
  old_budget : ℚ
  new_budget : ℚ
  reason : String
deriving DecidableEq

/-- The proposals of the ranked cohort, in rank order, starting at rank `i`:
each campaign keeps its current budget plus its conservation-scaled delta. -/
def proposalsAux (cfg : PlannerConfig) (n : ℕ) (scale : ℚ) :
    ℕ → List PlannerCampaign → List Proposal
  | _, [] => []
  | i, c :: rest =>
      ⟨c.id, c.budget, c.budget + scaledDelta scale (candidateDelta cfg n i c),
        "roi-rank reallocation"⟩ :: proposalsAux cfg n scale (i + 1) rest

/-- Modelled from the spec: the deterministic optimization planner of section 4.5 —
rank the cohort, compute rank-proportional clamped deltas, enforce the conservation
constraint by scaling increases down, and emit one proposal per campaign.  The
planner code is not in the repository. -/
def plan (cfg : PlannerConfig) (cs : List PlannerCampaign) : List Proposal :=
  let ranked := rankCampaigns cs
  let n := ranked.length
  let deltas := deltasAux cfg n 0 ranked
  let scale := conservationScale cfg ((ranked.map PlannerCampaign.budget).sum)
    ((deltas.map (fun d => max d 0)).sum) ((deltas.map (fun d => min d 0)).sum)
  proposalsAux cfg n scale 0 ranked

/-- Modelled from the spec: the per-campaign outcome recorded in an
`OptimizationRun` (section 3). -/
inductive Outcome where
  | applied
  | skipped (why : String)
  | failedRun
deriving DecidableEq

/-- Modelled from the spec: one remote `updateBudget` call issued by the executor
(section 4.7); the executor code is not in the repository. -/
structure AdapterCall where
  campaign_id : String
  new_budget : ℚ
deriving DecidableEq

/-- Modelled from the spec: the threshold gate of section 4.6 for one proposal —
apply only if `|new − old| / old ≥ threshold`, otherwise record outcome `skipped`
with reason "below threshold" and take no remote action.  The gate code is not in
the repository. -/
def gateProposal (threshold : ℚ) (p : Proposal) : Outcome × List AdapterCall :=
  if |p.new_budget - p.old_budget| / p.old_budget < threshold then
    (Outcome.skipped "below threshold", [])
  else
    (Outcome.applied, [⟨p.campaign_id, p.new_budget⟩])

/-- Modelled from the spec: one tick of the gate-and-execute stage over a proposal
list — every proposal gets a recorded outcome, and the tick's remote actions are the
concatenated adapter calls of the gated proposals.  The executor code is not in the
repository. -/
def executeTick (threshold : ℚ) (ps : List Proposal) :
    List (Proposal × Outcome) × List AdapterCall :=
  match ps with
  | [] => ([], [])
  | p :: rest =>
      let g := gateProposal threshold p
      let r := executeTick threshold rest
      ((p, g.1) :: r.1, g.2 ++ r.2)

/-!
## Theorems

Helper lemmas first, then one theorem per claim (with witnesses where the claim
theorem carries hypotheses).
-/

theorem foldl_statsStep (cs : List Campaign) (acc : CampaignStats) :
    cs.foldl statsStep acc =
      ⟨acc.total + cs.length,
       acc.enabled +
         (cs.filter (fun c => decide (c.status = CampaignStatus.ENABLED))).length,
       acc.paused +
         (cs.filter (fun c => decide (c.status = CampaignStatus.PAUSED))).length,
       acc.totalBudget +
         ((cs.filter (fun c => decide (c.status = CampaignStatus.ENABLED))).map
           Campaign.daily_budget).sum,
       acc.totalSpend + (cs.map (fun c => c.metrics.cost)).sum⟩ := by
  induction cs generalizing acc with
  | nil => simp
  | cons c cs ih =>
    rw [List.foldl_cons, ih]
    by_cases hE : c.status = CampaignStatus.ENABLED
    · simp only [statsStep, hE, if_pos rfl, List.filter_cons, List.length_cons,
        List.map_cons, List.sum_cons, decide_eq_true_eq]
      simp [CampaignStats.mk.injEq]
      refine ⟨by omega, by omega, by ring, by ring⟩
    · by_cases hP : c.status = CampaignStatus.PAUSED
      · simp only [statsStep, hE, hP, List.filter_cons, List.length_cons,
          List.map_cons, List.sum_cons]
        simp [CampaignStats.mk.injEq, hE]
        refine ⟨by omega, by omega, by ring⟩
      · simp only [statsStep, hE, hP, List.filter_cons, List.length_cons,
          List.map_cons, List.sum_cons]
        simp [CampaignStats.mk.injEq, hE, hP]
        refine ⟨by omega, by ring⟩

theorem enabled_paused_filter_le (cs : List Campaign) :
    (cs.filter (fun c => decide (c.status = CampaignStatus.ENABLED))).length +
      (cs.filter (fun c => decide (c.status = CampaignStatus.PAUSED))).length ≤
      cs.length := by
  induction cs with
  | nil => simp
  | cons c cs ih =>
    simp only [List.filter_cons, List.length_cons]
    by_cases hE : c.status = CampaignStatus.ENABLED
    · simp [hE]; omega
    · by_cases hP : c.status = CampaignStatus.PAUSED
      · simp [hE, hP]; omega
      · simp [hE, hP]; omega

/-- Claim C8: `calculateStats` returns `total` equal to the length of the list,
`totalBudget` equal to the sum of `daily_budget` over exactly the ENABLED
campaigns, `totalSpend` equal to the sum of `metrics.cost` over all campaigns
regardless of status, `enabled`/`paused` counting exactly the ENABLED/PAUSED
campaigns (so REMOVED campaigns are counted in neither), and
`enabled + paused ≤ total`. -/
theorem C8_calculateStats_correct (cs : List Campaign) :
    (calculateStats cs).total = cs.length ∧
    (calculateStats cs).totalBudget =
      ((cs.filter (fun c => decide (c.status = CampaignStatus.ENABLED))).map
        Campaign.daily_budget).sum ∧
    (calculateStats cs).totalSpend = (cs.map (fun c => c.metrics.cost)).sum ∧
    (calculateStats cs).enabled =
      (cs.filter (fun c => decide (c.status = CampaignStatus.ENABLED))).length ∧
    (calculateStats cs).paused =
      (cs.filter (fun c => decide (c.status = CampaignStatus.PAUSED))).length ∧
    (calculateStats cs).enabled + (calculateStats cs).paused ≤
      (calculateStats cs).total := by
  unfold calculateStats
  rw [foldl_statsStep]
  refine ⟨by simp, by simp, by simp, by simp, by simp, ?_⟩
  simpa using enabled_paused_filter_le cs

theorem keepCampaign_iff (f : CampaignFilters) (c : Campaign) :
    keepCampaign f c = true ↔
      (∀ p, f.platform = some p → c.platform = p) ∧
      (∀ s, f.status = some s → c.status = s) ∧
      (∀ b, f.minBudget = some b → b ≠ 0 → b ≤ c.daily_budget) ∧
      (∀ b, f.maxBudget = some b → b ≠ 0 → c.daily_budget ≤ b) := by
  rcases f with ⟨fp, fs, fmin, fmax⟩
  unfold keepCampaign guardPlatform guardStatus guardMin guardMax
  cases fp <;> cases fs <;> cases fmin <;> cases fmax <;> simp [not_lt] <;> tauto

/-- Claim C9: `filterCampaigns` treats a `minBudget` or `maxBudget` bound of `0` as
absent (the guards test JavaScript truthiness, not presence) — in particular
filtering with `maxBudget = 0` excludes nothing — and a campaign is kept exactly
when it satisfies every provided criterion, with the budget bounds effective only
when non-zero. -/
theorem C9_filterCampaigns_truthy (cs : List Campaign) (f : CampaignFilters) :
    filterCampaigns cs { f with minBudget := some 0 } =
      filterCampaigns cs { f with minBudget := none } ∧
    filterCampaigns cs { f with maxBudget := some 0 } =
      filterCampaigns cs { f with maxBudget := none } ∧
    ∀ c, c ∈ filterCampaigns cs f ↔ c ∈ cs ∧
      (∀ p, f.platform = some p → c.platform = p) ∧
      (∀ s, f.status = some s → c.status = s) ∧
      (∀ b, f.minBudget = some b → b ≠ 0 → b ≤ c.daily_budget) ∧
      (∀ b, f.maxBudget = some b → b ≠ 0 → c.daily_budget ≤ b) := by
  refine ⟨?_, ?_, ?_⟩
  · refine List.filter_congr fun c _ => ?_
    simp [keepCampaign, guardPlatform, guardStatus, guardMin, guardMax]
  · refine List.filter_congr fun c _ => ?_
    simp [keepCampaign, guardPlatform, guardStatus, guardMin, guardMax]
  · intro c
    rw [filterCampaigns, List.mem_filter, keepCampaign_iff]

/-- Witness for claim C9: with a concrete campaign, a `maxBudget` bound of `0`
filters exactly like an absent bound. -/
theorem C9_filterCampaigns_truthy_witness :
    filterCampaigns [⟨"c1", Platform.google, "N", CampaignStatus.ENABLED, 50, "BRL",
        ⟨0, 0, 0, 0, 0, 0⟩⟩]
      { platform := none, status := none, minBudget := none, maxBudget := some 0 } =
    filterCampaigns [⟨"c1", Platform.google, "N", CampaignStatus.ENABLED, 50, "BRL",
        ⟨0, 0, 0, 0, 0, 0⟩⟩]
      { platform := none, status := none, minBudget := none, maxBudget := none } :=
  (C9_filterCampaigns_truthy
    [⟨"c1", Platform.google, "N", CampaignStatus.ENABLED, 50, "BRL", ⟨0, 0, 0, 0, 0, 0⟩⟩]
    ⟨none, none, none, none⟩).2.1

theorem foldl_groupStep (cs : List Campaign) (g : Platform → Option (List Campaign))
    (p : Platform) :
    (cs.foldl groupStep g) p =
      if g p = none ∧ cs.filter (fun c => decide (c.platform = p)) = [] then none
      else some ((g p).getD [] ++ cs.filter (fun c => decide (c.platform = p))) := by
  induction cs generalizing g with
  | nil =>
    cases hg : g p <;> simp [hg]
  | cons c cs ih =>
    rw [List.foldl_cons, ih]
    by_cases hc : c.platform = p
    · have hstep : groupStep g c p = some ((g p).getD [] ++ [c]) := by
        simp [groupStep, hc]
      simp only [hstep, List.filter_cons, hc, decide_eq_true_eq, if_pos rfl]
      simp [List.append_assoc]
    · have hpc : ¬p = c.platform := fun h => hc h.symm
      have hstep : groupStep g c p = g p := by
        simp [groupStep, hpc]
      rw [hstep]
      simp only [List.filter_cons]
      simp [hc]

/-- Claim C10: `groupByPlatform` is a partition respecting input order: for every
platform `p`, the group of `p` is exactly the sublist of input campaigns whose
platform is `p` (so each campaign appears exactly once, under its own platform, in
input order), and a platform with no campaign in the input gets no key at all. -/
theorem C10_groupByPlatform_partition (cs : List Campaign) (p : Platform) :
    groupByPlatform cs p =
      if cs.filter (fun c => decide (c.platform = p)) = [] then none
      else some (cs.filter (fun c => decide (c.platform = p))) := by
  rw [groupByPlatform, foldl_groupStep]
  simp

/-- Claim C1: when one platform succeeds and the other fails or times out, the
aggregation returns exactly the succeeding platform's campaigns with
`degraded = true` naming the failed platform — not an error — and the client's
`getCampaigns` on the resulting response returns that data instead of throwing. -/
theorem C1_degraded_aggregation (g m : List Campaign) (e e2 : AdapterError) :
    aggregate (Except.ok g) (Except.error e) =
      Except.ok ⟨g, true, [Platform.meta]⟩ ∧
    getCampaigns (serveCampaignView (aggregate (Except.ok g) (Except.error e))) =
      Except.ok g ∧
    aggregate (Except.error e2) (Except.ok m) =
      Except.ok ⟨m, true, [Platform.google]⟩ ∧
    getCampaigns (serveCampaignView (aggregate (Except.error e2) (Except.ok m))) =
      Except.ok m :=
  ⟨rfl, rfl, rfl, rfl⟩

/-- Claim C2 counterexample: in the client's `CampaignMetrics` interface the `cpa`
field is an independent raw number, not a value computed from the snapshot, so a
metrics value whose stored CPA disagrees with `cost / conversions` inhabits the
type; the claim that CPA always equals `cost / conversions` (with derived metrics
never stored as independent raw fields) is false of this interface. -/
theorem C2_raw_cpa_counterexample :
    ¬ ∀ mx : CampaignMetrics, 0 < mx.conversions → mx.cpa = mx.cost / mx.conversions := by
  intro h
  have h2 := h ⟨0, 0, 2, 10, 0, 999⟩ (by norm_num)
  norm_num at h2

/-- Claim C2 (amended): the spec-modelled ROI/CPA calculator computes
`CPA = cost_micros / conversions` when `conversions > 0` and returns the explicit
`none` sentinel (not the number zero) when `conversions = 0`; the client's
`CampaignMetrics` interface, in contrast, carries `ctr` and `cpa` as independent
raw number fields. -/
theorem C2_computeCPA_spec (s : MetricsSnapshot) :
    (0 < s.conversions →
      computeCPA s = some ((s.cost_micros : ℚ) / (s.conversions : ℚ))) ∧
    (s.conversions = 0 → computeCPA s = none) := by
  constructor
  · intro h
    rw [computeCPA, if_neg (Nat.pos_iff_ne_zero.mp h)]
  · intro h
    rw [computeCPA, if_pos h]

/-- Witness for claim C2: the calculator evaluated on concrete snapshots with two
conversions and with zero conversions. -/
theorem C2_computeCPA_spec_witness :
    computeCPA ⟨100, 10, 2, 10⟩ = some 5 ∧ computeCPA ⟨100, 10, 0, 10⟩ = none := by
  constructor
  · rw [(C2_computeCPA_spec ⟨100, 10, 2, 10⟩).1 (by norm_num)]
    norm_num
  · exact (C2_computeCPA_spec ⟨100, 10, 0, 10⟩).2 rfl

theorem executeTick_fst (threshold : ℚ) (ps : List Proposal) :
    (executeTick threshold ps).1 = ps.map (fun p => (p, (gateProposal threshold p).1)) := by
  induction ps with
  | nil => rfl
  | cons p rest ih => simp [executeTick, ih]

theorem executeTick_snd (threshold : ℚ) (ps : List Proposal) :
    (executeTick threshold ps).2 =
      (ps.filter (fun q =>
        decide (threshold ≤ |q.new_budget - q.old_budget| / q.old_budget))).map
        (fun q => AdapterCall.mk q.campaign_id q.new_budget) := by
  induction ps with
  | nil => rfl
  | cons p rest ih =>
    simp only [executeTick, List.filter_cons]
    by_cases hlt : |p.new_budget - p.old_budget| / p.old_budget < threshold
    · rw [gateProposal, if_pos hlt]
      simp [ih, not_le.mpr hlt]
    · rw [gateProposal, if_neg hlt]
      simp [ih, not_lt.mp hlt]

/-- Claim C6: a proposal whose relative change `|new − old| / old` is below the
threshold never triggers an adapter `updateBudget` call: the gate records it as
skipped with reason "below threshold" and issues no adapter call, and within a
whole tick the adapter calls are exactly those of the proposals at or above the
threshold — a set the below-threshold proposal does not belong to. -/
theorem C6_threshold_gate (threshold : ℚ) (p : Proposal)
    (h : |p.new_budget - p.old_budget| / p.old_budget < threshold) :
    gateProposal threshold p = (Outcome.skipped "below threshold", []) ∧
    ∀ ps : List Proposal, p ∈ ps →
      (p, Outcome.skipped "below threshold") ∈ (executeTick threshold ps).1 ∧
      (executeTick threshold ps).2 =
        (ps.filter (fun q =>
          decide (threshold ≤ |q.new_budget - q.old_budget| / q.old_budget))).map
          (fun q => AdapterCall.mk q.campaign_id q.new_budget) ∧
      p ∉ ps.filter (fun q =>
        decide (threshold ≤ |q.new_budget - q.old_budget| / q.old_budget)) := by
  have hgate : gateProposal threshold p = (Outcome.skipped "below threshold", []) := by
    rw [gateProposal, if_pos h]
  refine ⟨hgate, fun ps hmem => ⟨?_, executeTick_snd threshold ps, ?_⟩⟩
  · rw [executeTick_fst]
    refine List.mem_map.mpr ⟨p, hmem, ?_⟩
    rw [hgate]
  · intro hcontra
    have := (List.mem_filter.mp hcontra).2
    simp only [decide_eq_true_eq] at this
    exact absurd h (not_lt.mpr this)

/-- Witness for claim C6: a 5% change against a 10% threshold is gated to
skipped with no adapter call. -/
theorem C6_threshold_gate_witness :
    gateProposal (1 / 10) ⟨"x", 100, 105, "r"⟩ =
      (Outcome.skipped "below threshold", []) :=
  (C6_threshold_gate (1 / 10) ⟨"x", 100, 105, "r"⟩ (by norm_num)).1

theorem iterate_requestMiss_of_mem (k : String) (m : ℕ) :
    ∀ s : CacheState, k ∈ s.inflight →
      ((fun st => requestMiss st k)^[m] s).inflight = s.inflight ∧
      ((fun st => requestMiss st k)^[m] s).waiters k = s.waiters k + m ∧
      ((fun st => requestMiss st k)^[m] s).upstreamCalls k = s.upstreamCalls k := by
  induction m with
  | zero => intro s _; simp
  | succ m ih =>
    intro s hk
    rw [Function.iterate_succ_apply]
    have hstep : requestMiss s k =
        { s with waiters := fun q => if q = k then s.waiters q + 1 else s.waiters q } := by
      rw [requestMiss, if_pos hk]
    obtain ⟨h1, h2, h3⟩ := ih (requestMiss s k) (by rw [hstep]; exact hk)
    refine ⟨by rw [h1, hstep], ?_, by rw [h3, hstep]⟩
    rw [h2, hstep]
    simp
    omega

/-- Claim C7: the cache is single-flight — starting from a state with no refresh of
key `k` in flight, `n ≥ 1` concurrent cache misses for `k` issue exactly one
upstream aggregator invocation, leave at most one refresh of any key in flight, and
when that one refresh completes with result `r` every one of the `n` callers (plus
any earlier subscriber) receives that same value-or-error `r`. -/
theorem C7_single_flight (s : CacheState) (k : String) (n : ℕ)
    (r : Except AggError AggResult) (hn : 0 < n) (hk : k ∉ s.inflight)
    (hsf : SingleFlight s) :
    ((fun st => requestMiss st k)^[n] s).upstreamCalls k = s.upstreamCalls k + 1 ∧
    ((fun st => requestMiss st k)^[n] s).waiters k = s.waiters k + n ∧
    SingleFlight ((fun st => requestMiss st k)^[n] s) ∧
    (completeRefresh ((fun st => requestMiss st k)^[n] s) k r).2 =
      List.replicate (s.waiters k + n) r := by
  obtain ⟨m, rfl⟩ : ∃ m, n = m + 1 := ⟨n - 1, by omega⟩
  rw [Function.iterate_succ_apply]
  have hstep : requestMiss s k =
      ⟨k :: s.inflight,
        fun q => if q = k then s.waiters q + 1 else s.waiters q,
        fun q => if q = k then s.upstreamCalls q + 1 else s.upstreamCalls q⟩ := by
    rw [requestMiss, if_neg hk]
  obtain ⟨h1, h2, h3⟩ :=
    iterate_requestMiss_of_mem k m (requestMiss s k) (by rw [hstep]; simp)
  have hcalls : ((fun st => requestMiss st k)^[m] (requestMiss s k)).upstreamCalls k =
      s.upstreamCalls k + 1 := by
    rw [h3, hstep]; simp
  have hwait : ((fun st => requestMiss st k)^[m] (requestMiss s k)).waiters k =
      s.waiters k + (m + 1) := by
    rw [h2, hstep]; simp; omega
  refine ⟨hcalls, hwait, ?_, ?_⟩
  · intro q
    rw [h1, hstep]
    simp only [List.count_cons]
    by_cases hq : q = k
    · subst hq
      have : s.inflight.count q = 0 := List.count_eq_zero.mpr hk
      simp [this]
    · have h0 := hsf q
      simpa [List.count_cons, hq, Ne.symm hq] using h0
  · rw [completeRefresh, hwait]

/-- Witness for claim C7: three concurrent misses on an initially empty cache issue
exactly one upstream call. -/
theorem C7_single_flight_witness :
    ((fun st => requestMiss st "all")^[3]
        (⟨[], fun _ => 0, fun _ => 0⟩ : CacheState)).upstreamCalls "all" = 0 + 1 :=
  (C7_single_flight ⟨[], fun _ => 0, fun _ => 0⟩ "all" 3
    (Except.error AggError.totalOutage) (by norm_num) (by simp)
    (fun k => by simp)).1

theorem proposalsAux_new_sum (cfg : PlannerConfig) (n : ℕ) (scale : ℚ) :
    ∀ (l : List PlannerCampaign) (i : ℕ),
      ((proposalsAux cfg n scale i l).map Proposal.new_budget).sum =
        (l.map PlannerCampaign.budget).sum +
          ((deltasAux cfg n i l).map (scaledDelta scale)).sum := by
  intro l
  induction l with
  | nil => intro i; simp [proposalsAux, deltasAux]
  | cons c rest ih =>
    intro i
    simp only [proposalsAux, deltasAux, List.map_cons, List.sum_cons, ih (i + 1)]
    ring

theorem scaledDelta_eq (scale d : ℚ) :
    scaledDelta scale d = scale * max d 0 + min d 0 := by
  unfold scaledDelta
  by_cases h : 0 < d
  · rw [if_pos h, max_eq_left h.le, min_eq_right h.le]
    ring
  · push_neg at h
    rw [if_neg (not_lt.mpr h), max_eq_right h, min_eq_left h]
    ring

theorem sum_map_scaledDelta (scale : ℚ) (ds : List ℚ) :
    (ds.map (scaledDelta scale)).sum =
      scale * (ds.map (fun d => max d 0)).sum + (ds.map (fun d => min d 0)).sum := by
  induction ds with
  | nil => simp
  | cons d ds ih =>
    simp only [List.map_cons, List.sum_cons, ih, scaledDelta_eq]
    ring

theorem sum_map_min_nonpos (ds : List ℚ) : (ds.map (fun d => min d 0)).sum ≤ 0 := by
  induction ds with
  | nil => simp
  | cons d ds ih =>
    simp only [List.map_cons, List.sum_cons]
    have : min d 0 ≤ 0 := min_le_right d 0
    linarith

theorem sum_map_max_nonneg (ds : List ℚ) : 0 ≤ (ds.map (fun d => max d 0)).sum := by
  induction ds with
  | nil => simp
  | cons d ds ih =>
    simp only [List.map_cons, List.sum_cons]
    have : 0 ≤ max d 0 := le_max_right d 0
    linarith

theorem conservationScale_nonneg (cfg : PlannerConfig) (t pos neg : ℚ) :
    0 ≤ conservationScale cfg t pos neg := by
  unfold conservationScale clampQ
  split
  · norm_num
  · exact le_max_left 0 _

theorem conservation_bound (cfg : PlannerConfig) (t pos neg : ℚ)
    (ht : 0 ≤ t) (hg : 1 ≤ cfg.maxGrowth) (hpos : 0 ≤ pos) (hneg : neg ≤ 0) :
    t + (conservationScale cfg t pos neg * pos + neg) ≤ cfg.maxGrowth * t := by
  have hB : t ≤ cfg.maxGrowth * t := le_mul_of_one_le_left ht hg
  unfold conservationScale
  by_cases hc : t + pos + neg ≤ cfg.maxGrowth * t
  · rw [if_pos hc]
    linarith
  · rw [if_neg hc]
    have hpos' : 0 < pos := by
      rcases lt_or_eq_of_le hpos with h | h
      · exact h
      · exfalso
        apply hc
        rw [← h]
        linarith
    have hnum : 0 ≤ cfg.maxGrowth * t - t - neg := by linarith
    have hscale : clampQ ((cfg.maxGrowth * t - t - neg) / pos) 0 1 ≤
        (cfg.maxGrowth * t - t - neg) / pos := by
      unfold clampQ
      exact max_le (div_nonneg hnum hpos'.le) (min_le_right 1 _)
    have hmul : clampQ ((cfg.maxGrowth * t - t - neg) / pos) 0 1 * pos ≤
        cfg.maxGrowth * t - t - neg := by
      calc clampQ ((cfg.maxGrowth * t - t - neg) / pos) 0 1 * pos
          ≤ ((cfg.maxGrowth * t - t - neg) / pos) * pos :=
            mul_le_mul_of_nonneg_right hscale hpos
        _ = cfg.maxGrowth * t - t - neg := div_mul_cancel₀ _ hpos'.ne'
    linarith

/-- Claim C3: for every planner run with the configured `max_growth_factor ≥ 1` over
campaigns with non-negative budgets, the sum of the proposed daily budgets is at
most the sum of the current daily budgets times `max_growth_factor`; when the
unconstrained proposal exceeds the bound the increases are scaled down
proportionally inside `plan` until the bound holds. -/
theorem C3_planner_conservation (cfg : PlannerConfig) (cs : List PlannerCampaign)
    (hg : 1 ≤ cfg.maxGrowth) (hb : ∀ c ∈ cs, 0 ≤ c.budget) :
    ((plan cfg cs).map Proposal.new_budget).sum ≤
      cfg.maxGrowth * (cs.map PlannerCampaign.budget).sum := by
  have hperm : (rankCampaigns cs).Perm cs := List.perm_insertionSort rankLE cs
  have hmapsum : ((rankCampaigns cs).map PlannerCampaign.budget).sum =
      (cs.map PlannerCampaign.budget).sum := (hperm.map PlannerCampaign.budget).sum_eq
  have ht : 0 ≤ (cs.map PlannerCampaign.budget).sum := by
    apply List.sum_nonneg
    intro x hx
    obtain ⟨c, hc, rfl⟩ := List.mem_map.mp hx
    exact hb c hc
  simp only [plan, proposalsAux_new_sum, sum_map_scaledDelta, hmapsum]
  exact conservation_bound cfg _ _ _ ht hg (sum_map_max_nonneg _) (sum_map_min_nonpos _)

/-- Witness for claim C3: a concrete run over three campaigns with growth factor 1
keeps the proposed total within the current total. -/
theorem C3_planner_conservation_witness :
    ((plan ⟨1 / 5, 1⟩ [⟨"a", 1000, 5⟩, ⟨"b", 10, 3⟩, ⟨"c", 10, 1⟩]).map
      Proposal.new_budget).sum ≤
      1 * (([⟨"a", 1000, 5⟩, ⟨"b", 10, 3⟩, ⟨"c", 10, 1⟩] :
        List PlannerCampaign).map PlannerCampaign.budget).sum :=
  C3_planner_conservation ⟨1 / 5, 1⟩ _ (by norm_num) (by decide)

theorem candidateDelta_lower (cfg : PlannerConfig) (n i : ℕ) (c : PlannerCampaign) :
    -(cfg.maxDelta * c.budget) ≤ candidateDelta cfg n i c :=
  le_max_left _ _

theorem proposalsAux_nonneg (cfg : PlannerConfig) (n : ℕ) (scale : ℚ)
    (hs0 : 0 ≤ scale) (hd1 : cfg.maxDelta ≤ 1) :
    ∀ (l : List PlannerCampaign) (i : ℕ), (∀ c ∈ l, 0 ≤ c.budget) →
      ∀ p ∈ proposalsAux cfg n scale i l, 0 ≤ p.new_budget := by
  intro l
  induction l with
  | nil => intro i _ p hp; simp [proposalsAux] at hp
  | cons c rest ih =>
    intro i hb p hp
    simp only [proposalsAux, List.mem_cons] at hp
    rcases hp with rfl | hp
    · have hbc : 0 ≤ c.budget := hb c (List.mem_cons_self c rest)
      simp only [scaledDelta]
      by_cases hd : 0 < candidateDelta cfg n i c
      · rw [if_pos hd]
        have := mul_nonneg hs0 hd.le
        linarith
      · rw [if_neg hd]
        have hlo := candidateDelta_lower cfg n i c
        nlinarith
    · exact ih (i + 1) (fun q hq => hb q (List.mem_cons_of_mem c hq)) p hp

/-- Claim C4: for every campaign in the planner's output, given the configured
per-tick clamp `max_delta_per_tick ≤ 1` (e.g. ±20%) and non-negative current
budgets, the proposed `new_budget_micros` is at least zero. -/
theorem C4_new_budget_nonneg (cfg : PlannerConfig) (cs : List PlannerCampaign)
    (hd1 : cfg.maxDelta ≤ 1) (hb : ∀ c ∈ cs, 0 ≤ c.budget) :
    ∀ p ∈ plan cfg cs, 0 ≤ p.new_budget := by
  simp only [plan]
  refine proposalsAux_nonneg cfg _ _ (conservationScale_nonneg cfg _ _ _) hd1 _ 0 ?_
  intro c hc
  exact hb c ((List.perm_insertionSort rankLE cs).mem_iff.mp hc)

/-- Witness for claim C4: the top proposal of a concrete two-campaign run has a
non-negative new budget. -/
theorem C4_new_budget_nonneg_witness :
    (0 : ℚ) ≤ (Proposal.mk "a" 100 120 "roi-rank reallocation").new_budget :=
  C4_new_budget_nonneg ⟨1 / 5, 1⟩ [⟨"a", 100, 5⟩, ⟨"b", 100, 3⟩]
    (by norm_num) (by decide) _
    (by norm_num [plan, rankCampaigns, rankLE, deltasAux, candidateDelta, clampQ,
      rankScore, conservationScale, scaledDelta, proposalsAux, min_def, max_def])

theorem sorted_nodup_pairwise_strict (l : List PlannerCampaign)
    (hs : l.Sorted rankLE) (hn : (l.map PlannerCampaign.id).Nodup) :
    l.Pairwise (fun a b => b.roi < a.roi ∨ (a.roi = b.roi ∧ a.id < b.id)) := by
  have hne : l.Pairwise (fun a b => a.id ≠ b.id) := List.pairwise_map.mp hn
  refine (List.Pairwise.and hs hne).imp ?_
  rintro a b ⟨hab, hid⟩
  rcases hab with h | ⟨he, hle⟩
  · exact Or.inl h
  · exact Or.inr ⟨he, lt_of_le_of_ne hle hid⟩

theorem rankCampaigns_eq_of_perm (cs₁ cs₂ : List PlannerCampaign)
    (hperm : cs₁.Perm cs₂) (hnodup : (cs₁.map PlannerCampaign.id).Nodup) :
    rankCampaigns cs₁ = rankCampaigns cs₂ := by
  have hp : (rankCampaigns cs₁).Perm (rankCampaigns cs₂) :=
    (List.perm_insertionSort rankLE cs₁).trans
      (hperm.trans (List.perm_insertionSort rankLE cs₂).symm)
  have hn₁ : ((rankCampaigns cs₁).map PlannerCampaign.id).Nodup :=
    (((List.perm_insertionSort rankLE cs₁).map PlannerCampaign.id).nodup_iff).mpr hnodup
  have hn₂ : ((rankCampaigns cs₂).map PlannerCampaign.id).Nodup := by
    refine (((List.perm_insertionSort rankLE cs₂).map PlannerCampaign.id).nodup_iff).mpr ?_
    exact ((hperm.map PlannerCampaign.id).nodup_iff).mp hnodup
  haveI : IsAntisymm PlannerCampaign
      (fun a b => b.roi < a.roi ∨ (a.roi = b.roi ∧ a.id < b.id)) := by
    constructor
    rintro a b (h1 | ⟨e1, h1⟩) (h2 | ⟨e2, h2⟩)
    · exact absurd (h1.trans h2) (lt_irrefl _)
    · exact absurd h1 (by rw [e2]; exact lt_irrefl _)
    · exact absurd h2 (by rw [e1]; exact lt_irrefl _)
    · exact absurd (h1.trans h2) (lt_irrefl _)
  exact List.eq_of_perm_of_sorted hp
    (sorted_nodup_pairwise_strict _ (List.sorted_insertionSort rankLE cs₁) hn₁)
    (sorted_nodup_pairwise_strict _ (List.sorted_insertionSort rankLE cs₂) hn₂)

/-- Claim C5: the planner is deterministic — its ranking (ROI descending, ties by
ascending campaign id) is a total order that is antisymmetric whenever campaign ids
are distinct, so the ranked order, and with it the whole proposal list, is uniquely
determined by the campaign set: the planner yields identical proposals on any two
presentations of the same input (in particular on re-runs over identical input). -/
theorem C5_planner_deterministic (cfg : PlannerConfig)
    (cs₁ cs₂ : List PlannerCampaign) (hperm : cs₁.Perm cs₂)
    (hnodup : (cs₁.map PlannerCampaign.id).Nodup) :
    plan cfg cs₁ = plan cfg cs₂ := by
  simp only [plan, rankCampaigns_eq_of_perm cs₁ cs₂ hperm hnodup]

/-- Witness for claim C5: the planner output over two concrete campaigns does not
depend on their presentation order. -/
theorem C5_planner_deterministic_witness :
    plan ⟨1 / 5, 1⟩ [⟨"b", 100, 3⟩, ⟨"a", 100, 5⟩] =
      plan ⟨1 / 5, 1⟩ [⟨"a", 100, 5⟩, ⟨"b", 100, 3⟩] :=
  C5_planner_deterministic ⟨1 / 5, 1⟩ _ _
    (List.Perm.swap (⟨"a", 100, 5⟩ : PlannerCampaign) (⟨"b", 100, 3⟩ : PlannerCampaign) [])
    (by simp)


